import Mathlib

/-
Verification of the pdf-qa retrieval core against its specification.

The Python sources (src/utils.py, src/core/vector_store.py,
src/core/embeddings.py, src/models/gemini.py) are shallowly embedded below:
text is List Char (ASCII semantics for the character predicates), machine
floats are idealized as real numbers, the module-level mutable globals are
passed as explicit state, and the FAISS flat inner-product index is modelled
by exact top-k selection over inner products, padded with rows carrying
label -1 and similarity -FLT_MAX when top_k exceeds ntotal, which is the
documented behaviour of faiss.IndexFlat.search.
-/

/-- Python str.isspace for the ASCII whitespace characters. -/
def pyIsSpace (c : Char) : Bool :=
  c == ' ' || c == '\t' || c == '\n' || c == '\r' || c == '\x0b' || c == '\x0c'

/-- Python str.isupper for a single ASCII character. -/
def pyIsUpper (c : Char) : Bool :=
  decide (65 ≤ c.toNat ∧ c.toNat ≤ 90)

/-- Python str.strip: remove leading and trailing whitespace. -/
def pyStrip (l : List Char) : List Char :=
  ((l.dropWhile pyIsSpace).reverse.dropWhile pyIsSpace).reverse

/-- pyStrip lifted to String, used by the Gemini wrapper embedding. -/
def pyStripS (s : String) : String :=
  String.mk (pyStrip s.data)

/-- Python list subscription l[i] with negative-index wrapping: an element is
returned for -len(l) <= i < len(l); anything else raises IndexError, rendered
here as none. -/
def pyGet {α : Type} (l : List α) (i : ℤ) : Option α :=
  if 0 ≤ i then l.get? i.toNat
  else if 0 ≤ (l.length : ℤ) + i then l.get? ((l.length : ℤ) + i).toNat
  else none

/-- The sentence terminators of chunk_text, src/utils.py line 131. -/
def sentEnd (c : Char) : Bool :=
  c == '.' || c == '!' || c == '?' || c == '\n'

/-- Position i of window w qualifies as a sentence break: w[i] is a sentence
terminator, i is not the last index of w, and w[i+1] is whitespace or an
uppercase letter (src/utils.py lines 134-138). -/
def qualifiesAt (w : List Char) (i : ℕ) : Bool :=
  ((w.get? i).map sentEnd).getD false &&
    ((w.get? (i + 1)).map (fun b => pyIsSpace b || pyIsUpper b)).getD false

/-- The backward scan over the window, Python
for i in range(len(w) - 1, max(len(w) - 100, 0), -1), src/utils.py
lines 134-138: called with the current index i, scanning downward while
i > lo, it returns the RELATIVE break position i + 1 of the first
qualifying index. -/
def scanBreak (w : List Char) (lo : ℕ) : ℕ → Option ℕ
  | 0 => none
  | i + 1 =>
    if i + 1 ≤ lo then none
    else if qualifiesAt w (i + 1) then some (i + 2)
    else scanBreak w lo i

/-- Python w.rfind(' '): index of the last space of w, none when absent. -/
def rfindSpace (w : List Char) : Option ℕ :=
  match w.reverse.findIdx? (· == ' ') with
  | some j => some (w.length - 1 - j)
  | none => none

/-- The current window text[start : start + chunk_size] of chunk_text. -/
def chunkWindow (t : List Char) (cs start : ℕ) : List Char :=
  (t.drop start).take cs

/-- One iteration of the chunk_text while-loop in the case end < len(text):
returns the emitted (already stripped) chunk and the next cursor position
(src/utils.py lines 128-170). Faithful to the source, including the fact
that a sentence-boundary break does NOT update the local variable end, so the
next cursor is start + chunk_size - overlap there, while a word-boundary
break sets end = start + last_space before the cursor update. Natural-number
subtraction models the final clamp of a negative cursor to 0. The float
comparison last_space > chunk_size * 0.7 is modelled exactly on the
rationals as 10 * last_space > 7 * chunk_size; binary rounding of 0.7 can
flip this comparison only when 0.7 * chunk_size is within one ulp of an
integer, which is avoided in every concrete instance below. -/
def chunkBody (t : List Char) (cs ov start : ℕ) : List Char × ℕ :=
  match scanBreak (chunkWindow t cs start) ((chunkWindow t cs start).length - 100)
      ((chunkWindow t cs start).length - 1) with
  | some r => (pyStrip ((t.drop start).take r), start + cs - ov)
  | none =>
    match rfindSpace (chunkWindow t cs start) with
    | some ls =>
      if 10 * ls > 7 * cs then (pyStrip ((t.drop start).take ls), start + ls - ov)
      else (pyStrip (chunkWindow t cs start), start + cs - ov)
    | none => (pyStrip (chunkWindow t cs start), start + cs - ov)

/-- The chunk_text while-loop (src/utils.py lines 125-170), with explicit
fuel. The Python loop can fail to advance the cursor (for example text
"abcdefgh ijk" with chunk_size 10 and overlap 8 repeats start = 0 forever),
so the loop is not total; because the transition is a deterministic function
of the cursor, any terminating Python run visits pairwise distinct cursor
values in [0, len(text)], hence runs at most len(text) + 1 iterations and is
reproduced exactly by fuel len(text) + 1. -/
def chunkLoop (t : List Char) (cs ov : ℕ) : ℕ → ℕ → List (List Char)
  | 0, _ => []
  | fuel + 1, start =>
    if t.length ≤ start then []
    else if t.length ≤ start + cs then
      if pyStrip (t.drop start) = [] then [] else [pyStrip (t.drop start)]
    else
      (if (chunkBody t cs ov start).1 = [] then [] else [(chunkBody t cs ov start).1]) ++
        chunkLoop t cs ov fuel (chunkBody t cs ov start).2

/-- chunk_text from src/utils.py lines 100-176: empty or all-whitespace text
yields []; text is stripped; stripped text no longer than chunk_size is
returned whole; otherwise the windowed loop runs, and empty chunks are
filtered out at the end. -/
def chunkText (text : List Char) (cs ov : ℕ) : List (List Char) :=
  if text = [] then []
  else if pyStrip text = [] then []
  else if (pyStrip text).length ≤ cs then [pyStrip text]
  else List.filter (fun c => !(pyStrip c).isEmpty)
    (chunkLoop (pyStrip text) cs ov ((pyStrip text).length + 1) 0)

/-- load_embedding_model from src/core/embeddings.py lines 11-51, as a state
transformer on the module-global cache _embedding_model. The external
SentenceTransformer constructor (including device selection) is abstracted as
the attempt argument: ok m when construction returns model m, error e when it
raises. The Python global is assigned only after the constructor returns, so
a raising attempt leaves the cache untouched (None) and the error is
re-raised with the logged prefix. -/
def loadEmbeddingModel (cache : Option ℕ) (attempt : Except String ℕ) :
    Except String ℕ × Option ℕ :=
  match cache with
  | some m => (Except.ok m, some m)
  | none =>
    match attempt with
    | Except.ok m => (Except.ok m, some m)
    | Except.error e => (Except.error ("Error loading embedding model: " ++ e), none)

/-- Response dictionary of generate_gemini_response (src/models/gemini.py).
The model_used key is present only on the success path, modelled as an
Option. -/
structure GeminiResponse where
  answer : String
  status : String
  modelUsed : Option String
deriving DecidableEq

/-- The prompt template of generate_gemini_response, src/models/gemini.py
lines 36-53. -/
def geminiPrompt (context query : String) : String :=
  "\nYou are a helpful assistant that answers questions based on provided document content.\n\nCONTEXT FROM DOCUMENT:\n"
    ++ context
    ++ "\n\nUSER QUESTION: " ++ query
    ++ "\n\nINSTRUCTIONS:\n1. Answer the question based ONLY on the provided context\n2. If the context doesn't contain enough information, say so clearly\n3. Be specific and cite relevant parts when possible\n4. Keep your answer concise but complete\n5. If asked about something not in the context, state that the information is not available in the document\n\nANSWER:"

/-- generate_gemini_response from src/models/gemini.py lines 12-82. The
remote Gemini call is abstracted as the argument remote, mapping the prompt
to the response text (none models a falsy response or response.text). The
returned Bool records whether the remote model was called. API-error
exception branches of the source are not exercised by any claim and the
remote abstraction cannot raise. -/
def generateGeminiResponse (query context : String) (remote : String → Option String) :
    GeminiResponse × Bool :=
  if pyStripS query = "" then
    (⟨"Please provide a valid question.", "error", none⟩, false)
  else if pyStripS context = "" then
    (⟨"I don't have enough relevant information in the document to answer your question.",
      "no_context", none⟩, false)
  else
    match remote (geminiPrompt context query) with
    | some t =>
      if t = "" then
        (⟨"I apologize, but I couldn't generate a response. Please try again.",
          "empty_response", none⟩, true)
      else (⟨pyStripS t, "success", some "gemini-1.5-flash"⟩, true)
    | none =>
      (⟨"I apologize, but I couldn't generate a response. Please try again.",
        "empty_response", none⟩, true)

/-- Sum of squares of the entries of v: the squared L2 norm used by
faiss.normalize_L2. -/
def sumsq (v : List ℝ) : ℝ :=
  (v.map (fun x => x * x)).sum

/-- Pointwise scaling of a vector. -/
def scaleVec (c : ℝ) (v : List ℝ) : List ℝ :=
  v.map (fun x => c * x)

/-- faiss.normalize_L2: divide every component by the L2 norm; an all-zero
vector is left unchanged (faiss renormalizes a row only when its norm is
positive). -/
noncomputable def normalizeL2 (v : List ℝ) : List ℝ :=
  if sumsq v = 0 then v else scaleVec (Real.sqrt (sumsq v))⁻¹ v

/-- Inner product of two vectors. -/
def innerProd (a b : List ℝ) : ℝ :=
  (List.zipWith (fun x y => x * y) a b).sum

/-- The sentinel similarity -FLT_MAX that faiss.IndexFlat.search reports on
padding rows when top_k exceeds ntotal. -/
def negFltMax : ℝ :=
  -((2 ^ 24 - 1) * 2 ^ 104)

/-- Inner product of the query against every stored vector, tagged with the
stored position, labels starting at i. -/
def scoreAll (q : List ℝ) : List (List ℝ) → ℤ → List (ℝ × ℤ)
  | [], _ => []
  | v :: rest, i => (innerProd q v, i) :: scoreAll q rest (i + 1)

/-- Insert a scored row into a list sorted by non-increasing score, keeping
earlier (smaller-label) rows first among equal scores. -/
noncomputable def sortInsert (p : ℝ × ℤ) : List (ℝ × ℤ) → List (ℝ × ℤ)
  | [] => [p]
  | q :: rest => if q.1 < p.1 then p :: q :: rest else q :: sortInsert p rest

/-- Sort scored rows by non-increasing score. -/
noncomputable def sortByScoreDesc : List (ℝ × ℤ) → List (ℝ × ℤ)
  | [] => []
  | p :: rest => sortInsert p (sortByScoreDesc rest)

/-- Model of faiss.IndexFlatIP.search on a flat index holding stored: the
similarity of the (already normalized) query against every stored vector,
best k rows first, padded with (-FLT_MAX, -1) rows when k > ntotal. -/
noncomputable def faissSearch (stored : List (List ℝ)) (q : List ℝ) (k : ℕ) : List (ℝ × ℤ) :=
  (sortByScoreDesc (scoreAll q stored 0)).take k ++
    List.replicate (k - ((sortByScoreDesc (scoreAll q stored 0)).take k).length)
      (negFltMax, -1)

/-- The module-global state of src/core/vector_store.py: _vector_store (the
faiss index, i.e. its stored rows) and _document_chunks. -/
structure VSState where
  store : Option (List (List ℝ))
  chunks : Option (List String)

/-- Error message of search_similar_chunks when no index is built: the
ValueError raised at src/core/vector_store.py line 65 is caught by the
enclosing handler and re-raised with the logged prefix. -/
def notReadyMsg : String :=
  "Error searching similar chunks: Vector store not initialized. Please upload a PDF first."

/-- Error message when the result loop hits an IndexError (possible only via
the padding label -1 on an empty chunk list), re-raised with the same
prefix. -/
def indexErrorMsg : String :=
  "Error searching similar chunks: list index out of range"

/-- The result loop of search_similar_chunks, src/core/vector_store.py lines
79-86: a row is kept when idx < len(chunks) (Python comparison, so the
padding label -1 passes), and the chunk is then read with Python
subscription, so -1 resolves to the LAST chunk; an actual IndexError aborts
the whole call. -/
def collectResults (ch : List String) : List (ℝ × ℤ) → Except String (List (String × ℝ))
  | [] => Except.ok []
  | (sim, idx) :: rest =>
    if idx < (ch.length : ℤ) then
      match pyGet ch idx with
      | some c => Except.map (fun l => (c, sim) :: l) (collectResults ch rest)
      | none => Except.error indexErrorMsg
    else collectResults ch rest

/-- search_similar_chunks after the query has been normalized. -/
noncomputable def searchWithNormalized (stored : List (List ℝ)) (ch : List String)
    (qn : List ℝ) (k : ℕ) : Except String (List (String × ℝ)) :=
  collectResults ch (faissSearch stored qn k)

/-- search_similar_chunks from src/core/vector_store.py lines 51-93: fails
when either global is None, otherwise normalizes the query and collects the
top-k rows. -/
noncomputable def searchSimilarChunks (s : VSState) (q : List ℝ) (k : ℕ) :
    Except String (List (String × ℝ)) :=
  match s.store, s.chunks with
  | some st, some ch => searchWithNormalized st ch (normalizeL2 q) k
  | _, _ => Except.error notReadyMsg

/-- create_vector_store from src/core/vector_store.py lines 11-49: normalizes
every embedding row in place, stores them in a fresh flat index and replaces
both globals. -/
noncomputable def createVectorStore (_s : VSState) (chunks : List String)
    (embeddings : List (List ℝ)) : VSState :=
  ⟨some (embeddings.map normalizeL2), some chunks⟩

/-- clear_vector_store from src/core/vector_store.py lines 95-103: resets
both globals to None. -/
def clearVectorStore (_s : VSState) : VSState :=
  ⟨none, none⟩

/-- The info dictionary of get_vector_store_info; the dimension key is absent
(none) in the empty state. -/
structure VSInfo where
  status : String
  totalVectors : ℕ
  totalChunks : ℕ
  dimension : Option ℕ
deriving DecidableEq

/-- get_vector_store_info from src/core/vector_store.py lines 105-122,
embedded as a state transformer to record that it only reads the globals:
the returned state is the input state. The index dimension, fixed in Python
at build time from embeddings.shape, is recovered here from the first stored
row. -/
noncomputable def getVectorStoreInfo (s : VSState) : VSInfo × VSState :=
  (match s.store with
    | none => ⟨"empty", 0, 0, none⟩
    | some st =>
      ⟨"ready", st.length,
        (match s.chunks with | some ch => ch.length | none => 0),
        some (st.head?.getD []).length⟩, s)

/-- Except.isOk as a plain definition. -/
def exceptIsOk {ε α : Type} : Except ε α → Bool
  | Except.ok _ => true
  | Except.error _ => false

/-- Concrete input refuting chunk coverage: "Ab. Cd efgh". -/
def c2Text : List Char :=
  "Ab. Cd efgh".toList

/-- A store built from one chunk with the one-dimensional vector [1]. -/
noncomputable def oneStore : VSState :=
  createVectorStore ⟨none, none⟩ ["a"] [[1]]

/-- Helper: dropWhile never lengthens a list. -/
theorem length_dropWhile_le' (p : Char → Bool) : ∀ l : List Char, (l.dropWhile p).length ≤ l.length := by
  intro l
  induction l with
  | nil => simp
  | cons a l ih =>
    by_cases h : p a
    · rw [List.dropWhile_cons_of_pos h]
      simp only [List.length_cons]
      omega
    · rw [List.dropWhile_cons_of_neg h]

/-- Helper: stripping never lengthens a list. -/
theorem pyStrip_length_le (l : List Char) : (pyStrip l).length ≤ l.length := by
  unfold pyStrip
  rw [List.length_reverse]
  calc ((l.dropWhile pyIsSpace).reverse.dropWhile pyIsSpace).length
      ≤ (l.dropWhile pyIsSpace).reverse.length := length_dropWhile_le' _ _
    _ = (l.dropWhile pyIsSpace).length := List.length_reverse _
    _ ≤ l.length := length_dropWhile_le' _ _

/-- Helper: a qualifying break index is strictly inside the window. -/
theorem qualifiesAt_lt (w : List Char) (i : ℕ) (h : qualifiesAt w i = true) :
    i + 1 < w.length := by
  unfold qualifiesAt at h
  rw [Bool.and_eq_true] at h
  cases h2 : w.get? (i + 1) with
  | none => rw [h2] at h; simp at h
  | some b => exact (List.get?_eq_some.mp h2).1

/-- Helper: a relative break position found by the backward scan is bounded
by the window length. -/
theorem scanBreak_le (w : List Char) (lo : ℕ) :
    ∀ i r : ℕ, scanBreak w lo i = some r → r ≤ w.length := by
  intro i
  induction i with
  | zero => intro r h; simp [scanBreak] at h
  | succ n ih =>
    intro r h
    unfold scanBreak at h
    by_cases h1 : n + 1 ≤ lo
    · rw [if_pos h1] at h; cases h
    · rw [if_neg h1] at h
      by_cases h2 : qualifiesAt w (n + 1) = true
      · rw [if_pos h2] at h
        have hr := Option.some.inj h
        have hq := qualifiesAt_lt w (n + 1) h2
        omega
      · rw [if_neg h2] at h
        exact ih r h

/-- Helper: the last-space index found by rfind is inside the window. -/
theorem rfindSpace_lt (w : List Char) (ls : ℕ) (h : rfindSpace w = some ls) :
    ls < w.length := by
  cases w with
  | nil => simp [rfindSpace] at h
  | cons a l =>
    unfold rfindSpace at h
    cases hf : (a :: l).reverse.findIdx? (· == ' ') with
    | none => rw [hf] at h; cases h
    | some j =>
      rw [hf] at h
      have hls := Option.some.inj h
      simp only [List.length_cons] at hls ⊢
      omega

/-- Helper: every chunk emitted by one loop iteration fits in chunk_size. -/
theorem chunkBody_fst_length (t : List Char) (cs ov start : ℕ) :
    (chunkBody t cs ov start).1.length ≤ cs := by
  have hw : (chunkWindow t cs start).length ≤ cs := by
    rw [chunkWindow, List.length_take]
    exact min_le_left _ _
  unfold chunkBody
  cases hs : scanBreak (chunkWindow t cs start) ((chunkWindow t cs start).length - 100)
      ((chunkWindow t cs start).length - 1) with
  | some r =>
    have hr : r ≤ (chunkWindow t cs start).length := scanBreak_le _ _ _ _ hs
    simp only
    calc (pyStrip ((t.drop start).take r)).length
        ≤ ((t.drop start).take r).length := pyStrip_length_le _
      _ ≤ r := by rw [List.length_take]; exact min_le_left _ _
      _ ≤ cs := le_trans hr hw
  | none =>
    cases hf : rfindSpace (chunkWindow t cs start) with
    | some ls =>
      have hls : ls < (chunkWindow t cs start).length := rfindSpace_lt _ _ hf
      simp only
      split_ifs with hcond
      · calc (pyStrip ((t.drop start).take ls)).length
            ≤ ((t.drop start).take ls).length := pyStrip_length_le _
          _ ≤ ls := by rw [List.length_take]; exact min_le_left _ _
          _ ≤ cs := by omega
      · exact le_trans (pyStrip_length_le _) hw
    | none =>
      simp only
      exact le_trans (pyStrip_length_le _) hw

/-- Helper: every chunk emitted by the loop fits in chunk_size, for every
fuel and cursor. -/
theorem chunkLoop_mem_length (t : List Char) (cs ov : ℕ) :
    ∀ (fuel start : ℕ) (c : List Char), c ∈ chunkLoop t cs ov fuel start →
      c.length ≤ cs := by
  intro fuel
  induction fuel with
  | zero => intro start c hc; simp [chunkLoop] at hc
  | succ n ih =>
    intro start c hc
    unfold chunkLoop at hc
    split_ifs at hc with h1 h2 h3 h4
    · simp at hc
    · simp at hc
    · rw [List.mem_singleton] at hc
      subst hc
      calc (pyStrip (t.drop start)).length
          ≤ (t.drop start).length := pyStrip_length_le _
        _ = t.length - start := List.length_drop _ _
        _ ≤ cs := by omega
    · rw [List.nil_append] at hc
      exact ih _ c hc
    · rw [List.mem_append] at hc
      rcases hc with hc | hc
      · rw [List.mem_singleton] at hc
        subst hc
        exact chunkBody_fst_length t cs ov start
      · exact ih _ c hc

/-- Helper: Except.map preserves the ok/error discriminant. -/
theorem exceptIsOk_map {ε α β : Type} (f : α → β) (e : Except ε α) :
    exceptIsOk (Except.map f e) = exceptIsOk e := by
  cases e <;> rfl

/-- Helper: non-negative in-range Python subscription succeeds. -/
theorem pyGet_isSome_of_nonneg {α : Type} (l : List α) (i : ℤ)
    (h0 : 0 ≤ i) (h1 : i < (l.length : ℤ)) : (pyGet l i).isSome = true := by
  unfold pyGet
  rw [if_pos h0]
  cases hg : l.get? i.toNat with
  | none =>
    rw [List.get?_eq_none] at hg
    omega
  | some a => rfl

/-- Helper: subscription at -1 succeeds on a nonempty list. -/
theorem pyGet_isSome_neg_one {α : Type} (l : List α) (h : l ≠ []) :
    (pyGet l (-1)).isSome = true := by
  have hl : 0 < l.length := List.length_pos.mpr h
  unfold pyGet
  rw [if_neg (by omega), if_pos (by omega)]
  cases hg : l.get? ((l.length : ℤ) + -1).toNat with
  | none =>
    rw [List.get?_eq_none] at hg
    omega
  | some a => rfl

/-- Helper: membership through the insertion sort. -/
theorem mem_of_mem_sortInsert (p r : ℝ × ℤ) :
    ∀ l : List (ℝ × ℤ), r ∈ sortInsert p l → r = p ∨ r ∈ l := by
  intro l
  induction l with
  | nil =>
    intro h
    rw [sortInsert, List.mem_singleton] at h
    exact Or.inl h
  | cons q rest ih =>
    intro h
    rw [sortInsert] at h
    split_ifs at h with hq
    · rcases List.mem_cons.mp h with h | h
      · exact Or.inl h
      · exact Or.inr h
    · rcases List.mem_cons.mp h with h | h
      · exact Or.inr (h ▸ List.mem_cons_self q rest)
      · rcases ih h with h | h
        · exact Or.inl h
        · exact Or.inr (List.mem_cons_of_mem q h)

/-- Helper: membership through the sort. -/
theorem mem_of_mem_sortByScoreDesc (r : ℝ × ℤ) :
    ∀ l : List (ℝ × ℤ), r ∈ sortByScoreDesc l → r ∈ l := by
  intro l
  induction l with
  | nil => intro h; simp [sortByScoreDesc] at h
  | cons p rest ih =>
    intro h
    rw [sortByScoreDesc] at h
    rcases mem_of_mem_sortInsert p r _ h with h | h
    · exact h ▸ List.mem_cons_self p rest
    · exact List.mem_cons_of_mem p (ih h)

/-- Helper: all labels produced by scoring are at least the starting label. -/
theorem scoreAll_label_ge (q : List ℝ) :
    ∀ (l : List (List ℝ)) (i : ℤ) (p : ℝ × ℤ), p ∈ scoreAll q l i → i ≤ p.2 := by
  intro l
  induction l with
  | nil => intro i p hp; simp [scoreAll] at hp
  | cons v rest ih =>
    intro i p hp
    rw [scoreAll] at hp
    rcases List.mem_cons.mp hp with h | h
    · rw [h]
    · have := ih (i + 1) p h
      omega

/-- Helper: every row of the modelled faiss search carries either the padding
label -1 or a non-negative label. -/
theorem faissSearch_label (st : List (List ℝ)) (q : List ℝ) (k : ℕ) (p : ℝ × ℤ)
    (hp : p ∈ faissSearch st q k) : p.2 = -1 ∨ 0 ≤ p.2 := by
  unfold faissSearch at hp
  rcases List.mem_append.mp hp with h | h
  · have h1 : p ∈ sortByScoreDesc (scoreAll q st 0) := List.take_subset _ _ h
    have h2 := mem_of_mem_sortByScoreDesc p _ h1
    exact Or.inr (scoreAll_label_ge q st 0 p h2)
  · have := (List.mem_replicate.mp h).2
    rw [this]
    exact Or.inl rfl

/-- Helper: the result loop succeeds whenever the chunk list is nonempty and
every row label is -1 or non-negative. -/
theorem collectResults_isOk (ch : List String) (hch : ch ≠ []) :
    ∀ rows : List (ℝ × ℤ), (∀ p ∈ rows, p.2 = -1 ∨ 0 ≤ p.2) →
      exceptIsOk (collectResults ch rows) = true := by
  intro rows
  induction rows with
  | nil => intro _; rfl
  | cons hd tl ih =>
    intro hall
    obtain ⟨sim, idx⟩ := hd
    have hhd := hall _ (List.mem_cons_self _ _)
    have htl : ∀ p ∈ tl, p.2 = -1 ∨ 0 ≤ p.2 :=
      fun p hp => hall p (List.mem_cons_of_mem _ hp)
    rw [collectResults]
    split_ifs with hlt
    · have hsome : (pyGet ch idx).isSome = true := by
        rcases hhd with h | h
        · rw [show (sim, idx).2 = idx from rfl] at h
          rw [h]
          exact pyGet_isSome_neg_one ch hch
        · exact pyGet_isSome_of_nonneg ch idx h hlt
      obtain ⟨c, hc⟩ := Option.isSome_iff_exists.mp hsome
      rw [hc, exceptIsOk_map]
      exact ih htl
    · exact ih htl

/-- Helper: sums of squares are non-negative. -/
theorem sumsq_nonneg (v : List ℝ) : 0 ≤ sumsq v := by
  induction v with
  | nil => simp [sumsq]
  | cons x xs ih =>
    rw [sumsq, List.map_cons, List.sum_cons]
    have hx := mul_self_nonneg x
    have : (List.map (fun x => x * x) xs).sum = sumsq xs := rfl
    rw [this]
    linarith

/-- Helper: scaling multiplies the sum of squares by the square of the
factor. -/
theorem sumsq_scaleVec (c : ℝ) (v : List ℝ) : sumsq (scaleVec c v) = c * c * sumsq v := by
  induction v with
  | nil => simp [sumsq, scaleVec]
  | cons x xs ih =>
    simp only [sumsq, scaleVec, List.map_cons, List.sum_cons] at ih ⊢
    rw [ih]
    ring

/-- Helper: composition of scalings. -/
theorem scaleVec_scaleVec (a b : ℝ) (v : List ℝ) :
    scaleVec a (scaleVec b v) = scaleVec (a * b) v := by
  unfold scaleVec
  rw [List.map_map]
  apply List.map_congr_left
  intro x _
  simp [mul_assoc]

/-- Helper: scaling by one is the identity. -/
theorem scaleVec_one (v : List ℝ) : scaleVec 1 v = v := by
  unfold scaleVec
  simp

/-- Helper: a vector with vanishing sum of squares is fixed by scaling. -/
theorem scaleVec_of_sumsq_zero (c : ℝ) :
    ∀ v : List ℝ, sumsq v = 0 → scaleVec c v = v := by
  intro v
  induction v with
  | nil => intro _; rfl
  | cons x xs ih =>
    intro h
    rw [sumsq, List.map_cons, List.sum_cons] at h
    have h2 : (List.map (fun x => x * x) xs).sum = sumsq xs := rfl
    rw [h2] at h
    have hx0 : 0 ≤ x * x := mul_self_nonneg x
    have hs0 : 0 ≤ sumsq xs := sumsq_nonneg xs
    have hx : x * x = 0 := by linarith
    have hs : sumsq xs = 0 := by linarith
    rw [scaleVec, List.map_cons]
    have hxz : x = 0 := by
      exact mul_self_eq_zero.mp hx
    rw [hxz, mul_zero]
    have := ih hs
    rw [scaleVec] at this
    rw [this]

/-- Helper: normalizing a positively scaled vector equals normalizing the
vector. -/
theorem normalizeL2_scale_pos (c : ℝ) (v : List ℝ) (hc : 0 < c) :
    normalizeL2 (scaleVec c v) = normalizeL2 v := by
  by_cases h : sumsq v = 0
  · have h1 : scaleVec c v = v := scaleVec_of_sumsq_zero c v h
    rw [h1]
  · have hc0 : c ≠ 0 := ne_of_gt hc
    have hcs : sumsq (scaleVec c v) = c * c * sumsq v := sumsq_scaleVec c v
    have hne : sumsq (scaleVec c v) ≠ 0 := by
      rw [hcs]
      exact mul_ne_zero (mul_ne_zero hc0 hc0) h
    unfold normalizeL2
    rw [if_neg hne, if_neg h, hcs]
    have hsq : Real.sqrt (c * c * sumsq v) = c * Real.sqrt (sumsq v) := by
      rw [Real.sqrt_mul (mul_self_nonneg c), Real.sqrt_mul_self hc.le]
    rw [hsq, scaleVec_scaleVec]
    congr 1
    rw [mul_inv, mul_comm c⁻¹ (Real.sqrt (sumsq v))⁻¹, mul_assoc,
      inv_mul_cancel₀ hc0, mul_one]

/-- Helper: the sum of squares of a normalized nonzero vector is one. -/
theorem sumsq_normalizeL2 (v : List ℝ) (h : sumsq v ≠ 0) :
    sumsq (normalizeL2 v) = 1 := by
  have hpos : 0 < sumsq v := lt_of_le_of_ne (sumsq_nonneg v) (Ne.symm h)
  have hs : Real.sqrt (sumsq v) ≠ 0 := by
    rw [Real.sqrt_ne_zero']
    exact hpos
  unfold normalizeL2
  rw [if_neg h, sumsq_scaleVec]
  have hms : Real.sqrt (sumsq v) * Real.sqrt (sumsq v) = sumsq v :=
    Real.mul_self_sqrt (sumsq_nonneg v)
  field_simp

/-- Helper: a vector of unit sum of squares is already normalized. -/
theorem normalizeL2_of_sumsq_one (w : List ℝ) (h : sumsq w = 1) :
    normalizeL2 w = w := by
  unfold normalizeL2
  rw [h, if_neg one_ne_zero, Real.sqrt_one, inv_one, scaleVec_one]

/-- Helper: normalization is idempotent. -/
theorem normalizeL2_idem (v : List ℝ) : normalizeL2 (normalizeL2 v) = normalizeL2 v := by
  by_cases h : sumsq v = 0
  · have hv : normalizeL2 v = v := by
      unfold normalizeL2
      rw [if_pos h]
    rw [hv]
    exact hv
  · exact normalizeL2_of_sumsq_one _ (sumsq_normalizeL2 v h)

/-- C8: for every input text and parameters overlap < chunk_size, no chunk
returned by chunk_text exceeds chunk_size characters. This holds without the
exception allowed by the claim: every branch of the loop slices inside the
current window, so no chunk ever overruns, which is stronger than the claimed
bound. -/
theorem chunkText_size_bound (text : List Char) (cs ov : ℕ) (c : List Char)
    (hov : ov < cs) (hc : c ∈ chunkText text cs ov) : c.length ≤ cs := by
  unfold chunkText at hc
  split_ifs at hc with h1 h2 h3
  · simp at hc
  · simp at hc
  · rw [List.mem_singleton] at hc
    subst hc
    exact h3
  · exact chunkLoop_mem_length (pyStrip text) cs ov _ _ c (List.mem_of_mem_filter hc)

/-- C8 witness: the size bound instantiated on the concrete document
"Ab. Cd efgh" with chunk_size 8, overlap 0 and its first emitted chunk. -/
theorem chunkText_size_bound_witness :
    (0 : ℕ) < 8 ∧ "Ab.".toList ∈ chunkText c2Text 8 0 ∧ ("Ab.".toList).length ≤ 8 :=
  ⟨by decide, by decide, chunkText_size_bound c2Text 8 0 "Ab.".toList (by decide) (by decide)⟩

/-- C9 counterexample: the claim quantifies over EVERY text with
len(text) <= chunk_size, but chunk_text strips the text first, so the
whitespace-padded text " a " (length 3 <= 5) comes back as ["a"], not as the
single-element sequence containing the whole text. -/
theorem chunkText_single_cex : chunkText " a ".toList 5 1 ≠ [" a ".toList] := by
  decide

/-- C9 amended: for every text whose whitespace-stripped form is nonempty,
if len(text) <= chunk_size then chunk_text returns the single-element
sequence [text.strip()] (equal to [text] when the text is already trimmed);
empty or all-whitespace text yields the empty sequence instead. -/
theorem chunkText_single_chunk (t : List Char) (cs ov : ℕ)
    (h1 : pyStrip t ≠ []) (h2 : t.length ≤ cs) :
    chunkText t cs ov = [pyStrip t] := by
  have ht : t ≠ [] := by
    intro he
    exact h1 (by rw [he]; rfl)
  have hlen : (pyStrip t).length ≤ cs := le_trans (pyStrip_length_le t) h2
  unfold chunkText
  rw [if_neg ht, if_neg h1, if_pos hlen]

/-- C9 witness: the amended single-chunk behaviour on the already-trimmed
text "ab" with chunk_size 5. -/
theorem chunkText_single_chunk_witness :
    pyStrip "ab".toList ≠ [] ∧ ("ab".toList).length ≤ 5 ∧
      chunkText "ab".toList 5 1 = [pyStrip "ab".toList] :=
  ⟨by decide, by decide, chunkText_single_chunk "ab".toList 5 1 (by decide) (by decide)⟩

/-- C2: evaluation of chunk_text at the failing input. On the already
normalized text "Ab. Cd efgh" with chunk_size 8 and overlap 0 the code
returns ["Ab.", "fgh"]: the non-whitespace characters of "Cd e" (the text
between the sentence break at position 3 and the next cursor 8) appear in no
chunk, refuting chunk coverage. The cause is that the sentence-boundary
branch advances the cursor from the raw window end instead of the break
position. -/
theorem chunkText_drops_characters :
    chunkText c2Text 8 0 = ["Ab.".toList, "fgh".toList] ∧
      c2Text.contains 'C' = true ∧
      (chunkText c2Text 8 0).all (fun c => !c.contains 'C') = true := by
  decide

/-- C3: evaluation of one loop iteration at the failing input. On
"Ab. Cd efgh" with chunk_size 8, overlap 0 and cursor 0, the backward scan
finds the sentence break at relative position 3 (the emitted chunk is
"Ab.", ending at absolute break position 3), yet the next cursor is 8 =
start + chunk_size - overlap, not 3 = break_position - overlap as the claim
states, because the sentence branch never updates the Python variable end. -/
theorem chunkBody_sentence_cursor :
    scanBreak (chunkWindow c2Text 8 0) ((chunkWindow c2Text 8 0).length - 100)
        ((chunkWindow c2Text 8 0).length - 1) = some 3 ∧
      chunkBody c2Text 8 0 0 = ("Ab.".toList, 8) ∧ (8 : ℕ) ≠ 3 - 0 := by
  decide

/-- C5: the cached-model state machine of load_embedding_model. A failing
first load returns the error and leaves the cache uninitialized (none), so a
later call attempts the load again and succeeds; a successful load caches
the model, and every later call returns the same cached instance regardless
of the attempt outcome. -/
theorem loadEmbeddingModel_cache_semantics (e : String) (m m2 : ℕ)
    (a : Except String ℕ) :
    (loadEmbeddingModel none (Except.error e)).2 = none ∧
      loadEmbeddingModel none (Except.ok m) = (Except.ok m, some m) ∧
      loadEmbeddingModel (some m) a = (Except.ok m, some m) ∧
      loadEmbeddingModel (loadEmbeddingModel none (Except.error e)).2 (Except.ok m2) =
        (Except.ok m2, some m2) :=
  ⟨rfl, rfl, rfl, rfl⟩

/-- C6: generate_gemini_response returns the error-status guidance on an
empty or all-whitespace query, and the no_context result on a non-empty
query with empty or all-whitespace context, in both cases without calling
the remote model (the Bool component records remote invocation). -/
theorem generateGeminiResponse_early_exits (q1 c1 q2 c2 : String)
    (remote : String → Option String)
    (h1 : pyStripS q1 = "") (h2 : pyStripS q2 ≠ "") (h3 : pyStripS c2 = "") :
    generateGeminiResponse q1 c1 remote =
        (⟨"Please provide a valid question.", "error", none⟩, false) ∧
      generateGeminiResponse q2 c2 remote =
        (⟨"I don't have enough relevant information in the document to answer your question.",
          "no_context", none⟩, false) := by
  constructor
  · unfold generateGeminiResponse
    rw [if_pos h1]
  · unfold generateGeminiResponse
    rw [if_neg h2, if_pos h3]

/-- C6 witness: the two early exits at concrete inputs. -/
theorem generateGeminiResponse_early_exits_witness :
    pyStripS " " = "" ∧ pyStripS "hi" ≠ "" ∧ pyStripS "\t" = "" ∧
      (generateGeminiResponse " " "doc text" (fun _ => none) =
          (⟨"Please provide a valid question.", "error", none⟩, false) ∧
        generateGeminiResponse "hi" "\t" (fun _ => none) =
          (⟨"I don't have enough relevant information in the document to answer your question.",
            "no_context", none⟩, false)) :=
  ⟨by decide, by decide, by decide,
    generateGeminiResponse_early_exits " " "doc text" "hi" "\t" (fun _ => none)
      (by decide) (by decide) (by decide)⟩

/-- C10: clear_vector_store is idempotent, after a clear the info snapshot
reports status "empty" with zero stored vectors, zero chunks and no
dimension key, and the info snapshot returns the state unchanged (it only
reads the globals). -/
theorem clearVectorStore_idempotent_info (s : VSState) :
    clearVectorStore (clearVectorStore s) = clearVectorStore s ∧
      (getVectorStoreInfo (clearVectorStore s)).1 = ⟨"empty", 0, 0, none⟩ ∧
      (getVectorStoreInfo s).2 = s :=
  ⟨rfl, rfl, rfl⟩

/-- C4: after clear (and likewise before any build, since the cleared state
is exactly the fresh all-None state) every search fails with the NotReady
error, and a subsequent build with a nonempty chunk list restores
searchability: the search returns ok for every query and top_k. -/
theorem searchSimilarChunks_clear_build (s : VSState) (q : List ℝ) (k : ℕ)
    (ch : List String) (embs : List (List ℝ)) (hch : ch ≠ []) :
    searchSimilarChunks (clearVectorStore s) q k = Except.error notReadyMsg ∧
      exceptIsOk (searchSimilarChunks (createVectorStore (clearVectorStore s) ch embs) q k)
        = true := by
  constructor
  · rfl
  · show exceptIsOk (searchWithNormalized (embs.map normalizeL2) ch (normalizeL2 q) k) = true
    unfold searchWithNormalized
    exact collectResults_isOk ch hch _ (fun p hp => faissSearch_label _ _ _ p hp)

/-- C4 witness: clear then search fails with NotReady; build with one chunk
then search succeeds. -/
theorem searchSimilarChunks_clear_build_witness :
    (["a"] : List String) ≠ [] ∧
      searchSimilarChunks (clearVectorStore ⟨none, none⟩) [1] 2 = Except.error notReadyMsg ∧
      exceptIsOk (searchSimilarChunks
        (createVectorStore (clearVectorStore ⟨none, none⟩) ["a"] [[1]]) [1] 2) = true :=
  ⟨by decide,
    (searchSimilarChunks_clear_build ⟨none, none⟩ [1] 2 ["a"] [[1]] (by decide)).1,
    (searchSimilarChunks_clear_build ⟨none, none⟩ [1] 2 ["a"] [[1]] (by decide)).2⟩

/-- C7 amended: scale invariance for every positive scalar. For every index
state, query vector v, scalar c > 0 and top_k, searching with the scaled
query c * v returns exactly the same results (chunks and scores) as
searching with the unit-normalized v: search normalizes its query, and
normalization maps c * v and normalize(v) to the same vector. -/
theorem search_scale_invariance_pos (s : VSState) (v : List ℝ) (c : ℝ) (k : ℕ)
    (hc : 0 < c) :
    searchSimilarChunks s (scaleVec c v) k = searchSimilarChunks s (normalizeL2 v) k := by
  have key : normalizeL2 (scaleVec c v) = normalizeL2 (normalizeL2 v) := by
    rw [normalizeL2_scale_pos c v hc, normalizeL2_idem]
  obtain ⟨store, chunks⟩ := s
  cases store with
  | none => rfl
  | some st =>
    cases chunks with
    | none => rfl
    | some ch =>
      show searchWithNormalized st ch (normalizeL2 (scaleVec c v)) k
          = searchWithNormalized st ch (normalizeL2 (normalizeL2 v)) k
      rw [key]

/-- C7 witness: the amended invariance at the concrete scalar 2 on the
one-vector store. -/
theorem search_scale_invariance_pos_witness :
    (0 : ℝ) < 2 ∧
      searchSimilarChunks oneStore (scaleVec 2 [1]) 1 =
        searchSimilarChunks oneStore (normalizeL2 [1]) 1 :=
  ⟨by norm_num, search_scale_invariance_pos oneStore [1] 2 1 (by norm_num)⟩

/-- Helper: normalizing the one-dimensional unit vector is the identity. -/
theorem normalizeL2_single_one : normalizeL2 [(1 : ℝ)] = [1] :=
  normalizeL2_of_sumsq_one _ (by norm_num [sumsq])

/-- Helper: normalizing the one-dimensional negative unit vector is the
identity. -/
theorem normalizeL2_single_negone : normalizeL2 [(-1 : ℝ)] = [-1] :=
  normalizeL2_of_sumsq_one _ (by norm_num [sumsq])

/-- C1: evaluation of search_similar_chunks at the failing input. On an
index holding a single chunk "a" with vector [1], searching with top_k = 2
returns TWO pairs instead of min(2, 1) = 1: the FAISS padding row carries
label -1 and score -FLT_MAX, the guard idx < len(chunks) lets -1 through,
and Python negative subscription resolves it to the last chunk, so the
out-of-range row is resolved to ("a", -FLT_MAX) rather than silently
dropped. -/
theorem searchSimilarChunks_overrun :
    searchSimilarChunks oneStore [1] 2 = Except.ok [("a", 1), ("a", negFltMax)] := by
  show searchWithNormalized ([[(1 : ℝ)]].map normalizeL2) ["a"] (normalizeL2 [1]) 2 = _
  rw [List.map_cons, List.map_nil, normalizeL2_single_one]
  unfold searchWithNormalized faissSearch
  norm_num [scoreAll, innerProd, sortByScoreDesc, sortInsert, collectResults, pyGet]
  rfl

/-- C7 counterexample: the claim quantifies over EVERY scalar c, but for
c = -1 the normalized query flips sign and the scores are negated: on the
one-vector store, searching with (-1) * [1] yields score -1 while searching
with the unit-normalized [1] yields score 1. -/
theorem search_scale_invariance_cex :
    searchSimilarChunks oneStore (scaleVec (-1) [1]) 1 ≠
      searchSimilarChunks oneStore (normalizeL2 [1]) 1 := by
  have hscale : scaleVec (-1 : ℝ) [1] = [-1] := by norm_num [scaleVec]
  have hl : searchSimilarChunks oneStore (scaleVec (-1) [1]) 1 = Except.ok [("a", -1)] := by
    show searchWithNormalized ([[(1 : ℝ)]].map normalizeL2) ["a"]
        (normalizeL2 (scaleVec (-1) [1])) 1 = _
    rw [List.map_cons, List.map_nil, normalizeL2_single_one, hscale, normalizeL2_single_negone]
    unfold searchWithNormalized faissSearch
    norm_num [scoreAll, innerProd, sortByScoreDesc, sortInsert, collectResults, pyGet]
    rfl
  have hr : searchSimilarChunks oneStore (normalizeL2 [1]) 1 = Except.ok [("a", 1)] := by
    show searchWithNormalized ([[(1 : ℝ)]].map normalizeL2) ["a"]
        (normalizeL2 (normalizeL2 [1])) 1 = _
    rw [List.map_cons, List.map_nil, normalizeL2_single_one, normalizeL2_single_one]
    unfold searchWithNormalized faissSearch
    norm_num [scoreAll, innerProd, sortByScoreDesc, sortInsert, collectResults, pyGet]
    rfl
  rw [hl, hr]
  intro h
  simp only [Except.ok.injEq, List.cons.injEq, Prod.mk.injEq] at h
  have := h.1.2
  norm_num at this
